import Mathlib

/-!
Verification of the challenge data-access layer
(`src/repositories/challengeRepository.js`).

The repository mediates CRUD and search operations over a table of
challenge records held by an external store provider (a relational
table behind an object-relational mapper).  The repository code is
embedded directly; the store provider (which lives outside the
repository file) is modelled from the specification: the store is a
list of records, `findAll` filters by a where-clause and orders by
`created_at` descending, `findByPk` looks a record up by id,
instance-update applies every supplied field, instance-destroy removes
the row.  Fallible operations return `Except String`, a thrown error
being represented by its message string, exactly as the repository
distinguishes errors (it compares message text).  Each operation takes
an extra `providerErr : Option String` argument: `some m` means the
provider call inside the `try` block throws an error with message `m`,
`none` means the provider behaves according to the pure store model.
-/

namespace ChallengeRepo

/-- A stored challenge row.  `is_weekly` is a nullable boolean column
(`none` models a row where the flag was never set), `due_date` and
`recurrence_rule` are likewise nullable. -/
structure ChallengeRecord where
  id : Nat
  title : String
  description : String
  reward_type : String
  reward_value : Int
  due_date : Option Nat
  status : String
  is_weekly : Option Bool
  recurrence_rule : Option String
  community_member_id : Nat
  created_at : Nat
deriving Repr, DecidableEq

/-- The filter argument of `getAllChallenges`.  `none` in a field models
a key that is absent / `undefined` in the JavaScript filters object;
`extra` models unrecognized keys that may also be present. -/
structure Filters where
  status : Option String := none
  community_member_id : Option Nat := none
  is_weekly : Option Bool := none
  extra : List String := []
deriving Repr, DecidableEq

/-- The where-clause the repository builds and hands to the provider. -/
structure WhereClause where
  status : Option String := none
  community_member_id : Option Nat := none
  is_weekly : Option Bool := none
deriving Repr, DecidableEq

/-- The argument of `updateChallenge`: a partial record, `some` in a
field meaning the caller supplied that key.  The JavaScript object may
carry any key, including `id` and `created_at`. -/
structure UpdateData where
  id : Option Nat := none
  title : Option String := none
  description : Option String := none
  reward_type : Option String := none
  reward_value : Option Int := none
  due_date : Option (Option Nat) := none
  status : Option String := none
  is_weekly : Option (Option Bool) := none
  recurrence_rule : Option (Option String) := none
  community_member_id : Option Nat := none
  created_at : Option Nat := none
deriving Repr, DecidableEq

/-- `searchTerm.trim() === ''` of the source: the string is empty or
consists of whitespace only. -/
def isBlank (s : String) : Bool := s.data.all Char.isWhitespace

/-- The confirmation object returned by `deleteChallenge`. -/
structure DeleteResult where
  id : Nat
  deleted : Bool
  message : String
deriving Repr, DecidableEq

/-- The argument of `searchChallenges`: a JavaScript value that is
either a string, `null`, or some other non-string value. -/
inductive SearchInput where
  | str (s : String)
  | nullVal
  | otherNonString
deriving Repr, DecidableEq

/-! ### Error messages of the repository (verbatim from the source) -/

def notFoundByIdMsg : String := "Không tìm thấy thử thách với ID đã cho."

def notFoundUpdateMsg : String := "Không tìm thấy thử thách để cập nhật."

def notFoundDeleteMsg : String := "Không tìm thấy thử thách để xóa."

def invalidStatusMsg : String := "Trạng thái không được để trống."

def deleteSuccessMsg : String := "Thử thách đã được xóa thành công."

def listFailedPre : String := "Lỗi khi lấy danh sách thử thách: "

def getFailedPre : String := "Lỗi khi lấy thử thách theo ID: "

def updateFailedPre : String := "Lỗi khi cập nhật thử thách: "

def deleteFailedPre : String := "Lỗi khi xóa thử thách: "

def searchFailedPre : String := "Lỗi khi tìm kiếm thử thách: "

def listByStatusPre : String := "Lỗi khi lấy thử thách theo trạng thái: "

/-- A `try { body } catch (e) { throw handler(e) }` block: the result of
the body, with a failing message passed through the handler. -/
def runCatch {α : Type} (body : Except String α) (handler : String → String) :
    Except String α :=
  match body with
  | Except.ok a => Except.ok a
  | Except.error m => Except.error (handler m)

/-! ### The store provider, modelled from the spec -/

/-- Modelled from the spec: the provider orders every listing by
`created_at` descending (newest first).  `createdGe a b` holds when `a`
is at least as new as `b`. -/
def createdGe (a b : ChallengeRecord) : Prop := b.created_at ≤ a.created_at

instance : DecidableRel createdGe := fun _ _ => Nat.decLe _ _

instance : IsTotal ChallengeRecord createdGe :=
  ⟨fun a b => (Nat.le_total a.created_at b.created_at).symm⟩

instance : IsTrans ChallengeRecord createdGe :=
  ⟨fun _ _ _ hab hbc => Nat.le_trans hbc hab⟩

/-- Modelled from the spec: the provider's `ORDER BY created_at DESC`. -/
def sortByCreatedDesc (l : List ChallengeRecord) : List ChallengeRecord :=
  List.insertionSort createdGe l

/-- Modelled from the spec: exact-match conditions of a where-clause.
A condition on a nullable column matches only a row where the column is
set to exactly that value. -/
def matchesWhere (w : WhereClause) (r : ChallengeRecord) : Bool :=
  (match w.status with
   | none => true
   | some s => r.status = s) &&
  (match w.community_member_id with
   | none => true
   | some n => r.community_member_id = n) &&
  (match w.is_weekly with
   | none => true
   | some b => r.is_weekly = some b)

/-- Modelled from the spec: the provider's `findAll` with a where-clause,
ordered by `created_at` descending. -/
def findAllWhere (store : List ChallengeRecord) (w : WhereClause) :
    List ChallengeRecord :=
  sortByCreatedDesc (store.filter (matchesWhere w))

/-- Modelled from the spec: the provider's `findByPk`. -/
def findByPk (store : List ChallengeRecord) (id : Nat) :
    Option ChallengeRecord :=
  store.find? (fun r => r.id = id)

/-- Does `f` accept some suffix of the string?  Used for the
any-sequence wildcard: the wildcard consumes an arbitrary prefix and
the rest of the pattern (`f`) must match the remaining suffix. -/
def matchStarAux (f : List Char → Bool) : List Char → Bool
  | [] => f []
  | c :: s => f (c :: s) || matchStarAux f s

/-- Modelled from the spec: the provider's SQL `LIKE` pattern match.
`'%'` matches any sequence of characters, `'_'` matches any single
character, every other pattern character matches itself. -/
def likeMatch : List Char → List Char → Bool
  | [], s => s.isEmpty
  | c :: p, s =>
    if c = '%' then matchStarAux (likeMatch p) s
    else
      match s with
      | [] => false
      | c2 :: s2 => if c = '_' then likeMatch p s2 else (c = c2 && likeMatch p s2)

/-- The pattern the repository interpolates the raw term into:
`'%' + term + '%'`, with no escaping of the term. -/
def searchPattern (t : String) : List Char := '%' :: (t.data ++ ['%'])

/-- Modelled from the spec: the provider's instance-update applies every
field the caller supplied and leaves the rest of the row untouched. -/
def applyUpdate (u : UpdateData) (r : ChallengeRecord) : ChallengeRecord :=
  { id := u.id.getD r.id
    title := u.title.getD r.title
    description := u.description.getD r.description
    reward_type := u.reward_type.getD r.reward_type
    reward_value := u.reward_value.getD r.reward_value
    due_date := u.due_date.getD r.due_date
    status := u.status.getD r.status
    is_weekly := u.is_weekly.getD r.is_weekly
    recurrence_rule := u.recurrence_rule.getD r.recurrence_rule
    community_member_id := u.community_member_id.getD r.community_member_id
    created_at := u.created_at.getD r.created_at }

/-- Replace the first row satisfying `p` (the row the fetched instance
points at) with `x`. -/
def replaceFirst (p : ChallengeRecord → Bool) (x : ChallengeRecord) :
    List ChallengeRecord → List ChallengeRecord
  | [] => []
  | y :: ys => if p y then x :: ys else y :: replaceFirst p x ys

/-- Remove the first row satisfying `p` (instance-destroy). -/
def removeFirst (p : ChallengeRecord → Bool) :
    List ChallengeRecord → List ChallengeRecord
  | [] => []
  | y :: ys => if p y then ys else y :: removeFirst p ys

/-! ### The repository operations (embedded from the source) -/

/-- `getAllChallenges`: builds the where-clause from the filters.
`status` and `community_member_id` are copied only when truthy (a
provided empty string / zero is falsy in JavaScript and skipped);
`is_weekly` is copied whenever it is not `undefined`.  Unrecognized
keys are never read. -/
def getAllWhere (filters : Filters) : WhereClause :=
  { status :=
      match filters.status with
      | some s => if s = "" then none else some s
      | none => none
    community_member_id :=
      match filters.community_member_id with
      | some n => if n = 0 then none else some n
      | none => none
    is_weekly := filters.is_weekly }

/-- `getAllChallenges(filters)`: provider `findAll` with the built
where-clause, any provider error wrapped with the list-failed prefix. -/
def getAllChallenges (store : List ChallengeRecord)
    (providerErr : Option String) (filters : Filters) :
    Except String (List ChallengeRecord) :=
  runCatch
    (match providerErr with
     | some m => Except.error m
     | none => Except.ok (findAllWhere store (getAllWhere filters)))
    (fun m => listFailedPre ++ m)

/-- `getChallengeById(id)`: `findByPk`, a missing record raises the
not-found message, and the catch block re-throws exactly that message
unchanged while wrapping every other error with the get-failed prefix. -/
def getChallengeById (store : List ChallengeRecord)
    (providerErr : Option String) (id : Nat) :
    Except String ChallengeRecord :=
  runCatch
    (match providerErr with
     | some m => Except.error m
     | none =>
       match findByPk store id with
       | none => Except.error notFoundByIdMsg
       | some c => Except.ok c)
    (fun m => if m = notFoundByIdMsg then m else getFailedPre ++ m)

/-- `updateChallenge(id, updateData)`: existence pre-check raising the
not-found message, then the instance update with the caller's object
passed through unfiltered.  `providerErr` models a failure of the
provider's write call.  Returns the updated record and the new store. -/
def updateChallenge (store : List ChallengeRecord)
    (providerErr : Option String) (id : Nat) (u : UpdateData) :
    Except String (ChallengeRecord × List ChallengeRecord) :=
  runCatch
    (match findByPk store id with
     | none => Except.error notFoundUpdateMsg
     | some c =>
       match providerErr with
       | some m => Except.error m
       | none =>
         Except.ok (applyUpdate u c,
           replaceFirst (fun r => r.id = id) (applyUpdate u c) store))
    (fun m => if m = notFoundUpdateMsg then m else updateFailedPre ++ m)

/-- `deleteChallenge(id)`: existence pre-check raising the not-found
message, then instance-destroy.  Returns the confirmation object and
the new store. -/
def deleteChallenge (store : List ChallengeRecord)
    (providerErr : Option String) (id : Nat) :
    Except String (DeleteResult × List ChallengeRecord) :=
  runCatch
    (match findByPk store id with
     | none => Except.error notFoundDeleteMsg
     | some _ =>
       match providerErr with
       | some m => Except.error m
       | none =>
         Except.ok ({ id := id, deleted := true, message := deleteSuccessMsg },
           removeFirst (fun r => r.id = id) store))
    (fun m => if m = notFoundDeleteMsg then m else deleteFailedPre ++ m)

/-- `searchChallenges(searchTerm)`: a non-string, empty or blank term
short-circuits to the empty list before any provider call; otherwise a
`findAll` with `title LIKE %term% OR description LIKE %term%`, ordered
by `created_at` descending, provider errors wrapped with the
search-failed prefix. -/
def searchChallenges (store : List ChallengeRecord)
    (providerErr : Option String) (input : SearchInput) :
    Except String (List ChallengeRecord) :=
  match input with
  | SearchInput.nullVal => Except.ok []
  | SearchInput.otherNonString => Except.ok []
  | SearchInput.str s =>
    if isBlank s then Except.ok []
    else
      runCatch
        (match providerErr with
         | some m => Except.error m
         | none =>
           Except.ok (sortByCreatedDesc (store.filter (fun r =>
             likeMatch (searchPattern s) r.title.data ||
               likeMatch (searchPattern s) r.description.data))))
        (fun m => searchFailedPre ++ m)

/-- `getChallengesByStatus(status)`: an empty status raises the
invalid-argument message inside the `try` block; the catch block wraps
EVERY caught message — including that one — with the
list-by-status-failed prefix. -/
def getChallengesByStatus (store : List ChallengeRecord)
    (providerErr : Option String) (status : String) :
    Except String (List ChallengeRecord) :=
  runCatch
    (if status = "" then Except.error invalidStatusMsg
     else
       match providerErr with
       | some m => Except.error m
       | none =>
         Except.ok (sortByCreatedDesc (store.filter (fun r =>
           r.status = status))))
    (fun m => listByStatusPre ++ m)

/-- The record list carried by a successful result (empty on failure);
used to state membership properties of listing operations. -/
def resultList (e : Except String (List ChallengeRecord)) :
    List ChallengeRecord :=
  match e with
  | Except.ok l => l
  | Except.error _ => []

/-! ### Sample data for witnesses -/

/-- A sample stored record. -/
def rec0 : ChallengeRecord :=
  { id := 1, title := "Chạy bộ", description := "Chạy 5km mỗi ngày",
    reward_type := "points", reward_value := 10, due_date := none,
    status := "pending", is_weekly := some false, recurrence_rule := none,
    community_member_id := 2, created_at := 100 }

/-- A second sample record, whose title contains no pattern
metacharacter. -/
def rec1 : ChallengeRecord :=
  { id := 2, title := "aXYb", description := "dọn dẹp",
    reward_type := "badge", reward_value := 1, due_date := some 7,
    status := "done", is_weekly := none, recurrence_rule := some "weekly",
    community_member_id := 3, created_at := 200 }

/-- A third sample record. -/
def rec2 : ChallengeRecord :=
  { id := 3, title := "aZb", description := "tập thể dục",
    reward_type := "points", reward_value := 5, due_date := none,
    status := "pending", is_weekly := some true, recurrence_rule := none,
    community_member_id := 3, created_at := 300 }

/-! ### Helper lemmas -/

/-- Membership in a provider listing: the sort is a permutation of the
filtered store. -/
theorem mem_findAllWhere {store : List ChallengeRecord} {w : WhereClause}
    {r : ChallengeRecord} :
    r ∈ findAllWhere store w ↔ r ∈ store ∧ matchesWhere w r = true := by
  unfold findAllWhere sortByCreatedDesc
  rw [(List.perm_insertionSort createdGe _).mem_iff, List.mem_filter]

/-- Membership in the result of `getAllChallenges` with a healthy
provider. -/
theorem mem_resultList_getAll {store : List ChallengeRecord} {f : Filters}
    {r : ChallengeRecord} :
    r ∈ resultList (getAllChallenges store none f) ↔
      r ∈ store ∧ matchesWhere (getAllWhere f) r = true :=
  mem_findAllWhere

/-- Two strings starting with different characters stay different after
appending anything to the second one. -/
theorem ne_append_of_head_ne {s t : String} {a b : Char}
    (hs : s.data.head? = some a) (ht : t.data.head? = some b) (hab : a ≠ b)
    (m : String) : s ≠ t ++ m := by
  intro h
  have hd : s.data = t.data ++ m.data := by
    rw [h, String.data_append]
  rcases tl : t.data with _ | ⟨c, l⟩
  · rw [tl] at ht; exact Option.noConfusion ht
  · rw [tl] at ht hd
    rw [hd] at hs
    have ha : c = a := Option.some.inj hs
    have hb : c = b := Option.some.inj ht
    exact hab (ha.symm.trans hb)

/-- `matchStarAux f` accepts exactly the strings that have an accepted
suffix. -/
theorem matchStarAux_eq_true {f : List Char → Bool} {s : List Char} :
    matchStarAux f s = true ↔ ∃ s1 s2, s = s1 ++ s2 ∧ f s2 = true := by
  induction s with
  | nil =>
    rw [show matchStarAux f [] = f [] from rfl]
    constructor
    · exact fun h => ⟨[], [], rfl, h⟩
    · rintro ⟨s1, s2, h, h2⟩
      obtain ⟨rfl, rfl⟩ := List.append_eq_nil.mp h.symm
      exact h2
  | cons c s ih =>
    rw [show matchStarAux f (c :: s) = (f (c :: s) || matchStarAux f s)
      from rfl, Bool.or_eq_true, ih]
    constructor
    · rintro (h | ⟨s1, s2, rfl, h2⟩)
      · exact ⟨[], c :: s, rfl, h⟩
      · exact ⟨c :: s1, s2, rfl, h2⟩
    · rintro ⟨s1, s2, heq, h2⟩
      rcases s1 with _ | ⟨c1, s1⟩
      · exact Or.inl (by rw [heq]; exact h2)
      · simp only [List.cons_append] at heq
        injection heq with h3 h4
        exact Or.inr ⟨s1, s2, h4, h2⟩

/-- A leading `'%'` in the pattern consumes an arbitrary prefix of the
string. -/
theorem likeMatch_percent (p s : List Char) :
    likeMatch ('%' :: p) s = true ↔
      ∃ s1 s2, s = s1 ++ s2 ∧ likeMatch p s2 = true := by
  rw [show likeMatch ('%' :: p) s = matchStarAux (likeMatch p) s from by
    simp [likeMatch]]
  exact matchStarAux_eq_true

/-- The pattern consisting of a single `'%'` accepts every string. -/
theorem likeMatch_percent_nil (s : List Char) : likeMatch ['%'] s = true :=
  (likeMatch_percent [] s).mpr ⟨s, [], (List.append_nil s).symm, rfl⟩

/-- A metacharacter-free pattern segment matches literally: it consumes
exactly itself from the front of the string. -/
theorem likeMatch_literal_append (t p : List Char) :
    ∀ s, (∀ c ∈ t, c ≠ '%' ∧ c ≠ '_') →
      (likeMatch (t ++ p) s = true ↔
        ∃ s2, s = t ++ s2 ∧ likeMatch p s2 = true) := by
  induction t with
  | nil =>
    intro s _
    constructor
    · exact fun h => ⟨s, rfl, h⟩
    · rintro ⟨s2, rfl, h2⟩
      exact h2
  | cons c t ih =>
    intro s hm
    have hc := hm c (List.mem_cons_self c t)
    have hm2 : ∀ c2 ∈ t, c2 ≠ '%' ∧ c2 ≠ '_' :=
      fun c2 h2 => hm c2 (List.mem_cons_of_mem c h2)
    cases s with
    | nil =>
      rw [show likeMatch ((c :: t) ++ p) [] = false from by
        simp [likeMatch, hc.1]]
      simp
    | cons c2 s =>
      rw [List.cons_append,
        show likeMatch (c :: (t ++ p)) (c2 :: s) =
            (decide (c = c2) && likeMatch (t ++ p) s) from by
          simp [likeMatch, hc.1, hc.2],
        Bool.and_eq_true, decide_eq_true_eq, ih s hm2]
      constructor
      · rintro ⟨rfl, s2, rfl, h2⟩
        exact ⟨s2, rfl, h2⟩
      · rintro ⟨s2, heq, h2⟩
        simp only [List.cons_append] at heq
        injection heq with h3 h4
        exact ⟨h3.symm, s2, h4, h2⟩

/-- The interpolated pattern `%t%` with a metacharacter-free term `t`
accepts exactly the strings containing `t` as a substring. -/
theorem likeMatch_searchPattern_iff_infix {t : String}
    (hm : ∀ c ∈ t.data, c ≠ '%' ∧ c ≠ '_') (s : List Char) :
    likeMatch (searchPattern t) s = true ↔ t.data <:+: s := by
  rw [searchPattern, likeMatch_percent]
  constructor
  · rintro ⟨s1, s2, rfl, h2⟩
    rw [likeMatch_literal_append t.data ['%'] s2 hm] at h2
    obtain ⟨s3, rfl, _⟩ := h2
    exact ⟨s1, s3, by simp⟩
  · rintro ⟨s1, s3, rfl⟩
    refine ⟨s1, t.data ++ s3, by simp,
      (likeMatch_literal_append t.data ['%'] _ hm).mpr
        ⟨s3, rfl, likeMatch_percent_nil s3⟩⟩

/-- Membership in the result of a non-blank search with a healthy
provider. -/
theorem mem_resultList_search {store : List ChallengeRecord} {t : String}
    (ht : isBlank t = false) {r : ChallengeRecord} :
    r ∈ resultList (searchChallenges store none (SearchInput.str t)) ↔
      r ∈ store ∧ (likeMatch (searchPattern t) r.title.data = true ∨
        likeMatch (searchPattern t) r.description.data = true) := by
  have hstep : searchChallenges store none (SearchInput.str t) =
      Except.ok (sortByCreatedDesc (store.filter (fun r =>
        likeMatch (searchPattern t) r.title.data ||
          likeMatch (searchPattern t) r.description.data))) := by
    simp [searchChallenges, ht, runCatch]
  rw [hstep]
  rw [show resultList (Except.ok (sortByCreatedDesc (store.filter (fun r =>
        likeMatch (searchPattern t) r.title.data ||
          likeMatch (searchPattern t) r.description.data)))) =
      sortByCreatedDesc (store.filter (fun r =>
        likeMatch (searchPattern t) r.title.data ||
          likeMatch (searchPattern t) r.description.data)) from rfl]
  unfold sortByCreatedDesc
  rw [(List.perm_insertionSort createdGe _).mem_iff, List.mem_filter,
    Bool.or_eq_true]

/-- An unescaped `'%'` in the middle of the term matches any character
sequence: the term `a%b` accepts any title of the shape `a ++ w ++ b`. -/
theorem likeMatch_mid_percent (a b : String) (w : List Char)
    (ha : ∀ c ∈ a.data, c ≠ '%' ∧ c ≠ '_')
    (hb : ∀ c ∈ b.data, c ≠ '%' ∧ c ≠ '_') :
    likeMatch (searchPattern (a ++ "%" ++ b))
      (a.data ++ w ++ b.data) = true := by
  rw [searchPattern, String.data_append, String.data_append,
    show ("%" : String).data = ['%'] from rfl]
  rw [show likeMatch ('%' :: (a.data ++ ['%'] ++ b.data ++ ['%']))
        (a.data ++ w ++ b.data) =
      matchStarAux (likeMatch (a.data ++ ['%'] ++ b.data ++ ['%']))
        (a.data ++ w ++ b.data) from by simp [likeMatch]]
  rw [matchStarAux_eq_true]
  refine ⟨[], a.data ++ w ++ b.data, rfl, ?_⟩
  rw [show a.data ++ ['%'] ++ b.data ++ ['%'] =
      a.data ++ ('%' :: (b.data ++ ['%'])) from by simp]
  rw [likeMatch_literal_append a.data ('%' :: (b.data ++ ['%'])) _ ha]
  refine ⟨w ++ b.data, by simp, ?_⟩
  rw [likeMatch_percent]
  exact ⟨w, b.data, rfl,
    (likeMatch_literal_append b.data ['%'] b.data hb).mpr
      ⟨[], (List.append_nil _).symm, likeMatch_percent_nil []⟩⟩

/-- An unescaped `'_'` in the middle of the term matches any single
character: the term `a_b` accepts any title of the shape
`a ++ [ch] ++ b`. -/
theorem likeMatch_mid_underscore (a b : String) (ch : Char)
    (ha : ∀ c ∈ a.data, c ≠ '%' ∧ c ≠ '_')
    (hb : ∀ c ∈ b.data, c ≠ '%' ∧ c ≠ '_') :
    likeMatch (searchPattern (a ++ "_" ++ b))
      (a.data ++ ch :: b.data) = true := by
  rw [searchPattern, String.data_append, String.data_append,
    show ("_" : String).data = ['_'] from rfl]
  rw [show likeMatch ('%' :: (a.data ++ ['_'] ++ b.data ++ ['%']))
        (a.data ++ ch :: b.data) =
      matchStarAux (likeMatch (a.data ++ ['_'] ++ b.data ++ ['%']))
        (a.data ++ ch :: b.data) from by simp [likeMatch]]
  rw [matchStarAux_eq_true]
  refine ⟨[], a.data ++ ch :: b.data, rfl, ?_⟩
  rw [show a.data ++ ['_'] ++ b.data ++ ['%'] =
      a.data ++ ('_' :: (b.data ++ ['%'])) from by simp]
  rw [likeMatch_literal_append a.data ('_' :: (b.data ++ ['%'])) _ ha]
  refine ⟨ch :: b.data, rfl, ?_⟩
  rw [show likeMatch ('_' :: (b.data ++ ['%'])) (ch :: b.data) =
      likeMatch (b.data ++ ['%']) b.data from by simp [likeMatch]]
  exact (likeMatch_literal_append b.data ['%'] b.data hb).mpr
    ⟨[], (List.append_nil _).symm, likeMatch_percent_nil []⟩

/-! ### Claims -/

/-- Claim C1, counterexample: at the empty-status input the operation
does not fail with the bare invalid-argument error — the error it
raises is the invalid-argument message re-wrapped with the
list-by-status provider-failure prefix. -/
theorem c1_counterexample :
    getChallengesByStatus [] none "" ≠ Except.error invalidStatusMsg ∧
    getChallengesByStatus [] none "" =
      Except.error (listByStatusPre ++ invalidStatusMsg) := by
  refine ⟨fun h => ?_, rfl⟩
  rw [show getChallengesByStatus [] none "" =
    Except.error (listByStatusPre ++ invalidStatusMsg) from rfl] at h
  injection h with h2
  exact absurd h2 (by decide)

/-- Claim C1 (amended): for the empty-string status input,
`getChallengesByStatus` fails, but the invalid-argument error raised by
the pre-check is caught by the operation's own catch block and
re-wrapped with the list-by-status provider-failure prefix, so the
resulting error is a provider-failure-shaped message, not the bare
invalid-argument error. -/
theorem c1_listByStatus_empty_rewrapped (store : List ChallengeRecord)
    (pe : Option String) :
    getChallengesByStatus store pe "" =
      Except.error (listByStatusPre ++ invalidStatusMsg) := rfl

/-- Claim C2, evaluation at the failing input: `updateChallenge` passes
the caller's object through with no allow-list, so supplying `id` and
`created_at` overwrites them in the stored record, while fields not
supplied are left untouched. -/
theorem c2_update_overwrites_protected_fields :
    updateChallenge [rec0] none 1 { id := some 7, created_at := some 999 } =
      Except.ok ({ rec0 with id := 7, created_at := 999 },
        [{ rec0 with id := 7, created_at := 999 }]) ∧
    ({ rec0 with id := 7, created_at := 999 } : ChallengeRecord).id ≠ rec0.id ∧
    ({ rec0 with id := 7, created_at := 999 } :
      ChallengeRecord).created_at ≠ rec0.created_at := by
  exact ⟨rfl, by decide, by decide⟩

/-- Claim C3: on an id with no matching record, `updateChallenge` and
`deleteChallenge` fail with exactly the not-found message raised by
their existence pre-check — the catch block re-throws it unchanged —
and that message is never of the re-wrapped provider-failure form. -/
theorem c3_update_delete_notFound_propagates (store : List ChallengeRecord)
    (pe : Option String) (id : Nat) (u : UpdateData)
    (h : findByPk store id = none) :
    updateChallenge store pe id u = Except.error notFoundUpdateMsg ∧
    deleteChallenge store pe id = Except.error notFoundDeleteMsg ∧
    (∀ m, notFoundUpdateMsg ≠ updateFailedPre ++ m) ∧
    (∀ m, notFoundDeleteMsg ≠ deleteFailedPre ++ m) := by
  refine ⟨?_, ?_, ?_, ?_⟩
  · simp [updateChallenge, h, runCatch]
  · simp [deleteChallenge, h, runCatch]
  · exact fun m => ne_append_of_head_ne (s := notFoundUpdateMsg)
      (t := updateFailedPre) (a := 'K') (b := 'L') rfl rfl (by decide) m
  · exact fun m => ne_append_of_head_ne (s := notFoundDeleteMsg)
      (t := deleteFailedPre) (a := 'K') (b := 'L') rfl rfl (by decide) m

/-- Witness for C3 at a concrete input: the store holding only `rec0`
has no record with id 42. -/
theorem c3_witness :
    findByPk [rec0] 42 = none ∧
    updateChallenge [rec0] none 42 { status := some "done" } =
      Except.error notFoundUpdateMsg ∧
    deleteChallenge [rec0] none 42 = Except.error notFoundDeleteMsg := by
  have h : findByPk [rec0] 42 = none := rfl
  have H := c3_update_delete_notFound_propagates [rec0] none 42
    { status := some "done" } h
  exact ⟨h, H.1, H.2.1⟩

/-- Claim C5: `getChallengeById` returns the matching record when one
exists; when none does, it fails with exactly the not-found message
(re-thrown unchanged by the catch block), a message never equal to a
wrapped get-failed message; any other provider error is wrapped with
the get-failed prefix, yielding a message distinct from the not-found
one. -/
theorem c5_getById_cases (store : List ChallengeRecord) (id : Nat) :
    (∀ r, findByPk store id = some r →
      getChallengeById store none id = Except.ok r) ∧
    (findByPk store id = none →
      getChallengeById store none id = Except.error notFoundByIdMsg ∧
      ∀ m, notFoundByIdMsg ≠ getFailedPre ++ m) ∧
    (∀ m, m ≠ notFoundByIdMsg →
      getChallengeById store (some m) id =
        Except.error (getFailedPre ++ m)) := by
  refine ⟨fun r hr => ?_, fun h => ⟨?_, ?_⟩, fun m hm => ?_⟩
  · simp [getChallengeById, hr, runCatch]
  · simp [getChallengeById, h, runCatch]
  · exact fun m => ne_append_of_head_ne (s := notFoundByIdMsg)
      (t := getFailedPre) (a := 'K') (b := 'L') rfl rfl (by decide) m
  · simp [getChallengeById, runCatch, hm]

/-- Witness for C5 at concrete inputs: a present id is returned, an
absent id yields the not-found error. -/
theorem c5_witness :
    getChallengeById [rec0] none 1 = Except.ok rec0 ∧
    getChallengeById [] none 1 = Except.error notFoundByIdMsg := by
  exact ⟨(c5_getById_cases [rec0] 1).1 rec0 rfl,
    ((c5_getById_cases [] 1).2.1 rfl).1⟩

/-- Claim C6: a non-string term (null included), an empty term and a
whitespace-only term all make `searchChallenges` return the empty list
as a success, independently of the store contents and of any provider
error — the guard short-circuits before the provider is queried. -/
theorem c6_search_invalid_input_empty (store : List ChallengeRecord)
    (pe : Option String) :
    searchChallenges store pe SearchInput.nullVal = Except.ok [] ∧
    searchChallenges store pe SearchInput.otherNonString = Except.ok [] ∧
    (∀ s : String, isBlank s = true →
      searchChallenges store pe (SearchInput.str s) = Except.ok []) := by
  refine ⟨rfl, rfl, fun s hs => ?_⟩
  simp [searchChallenges, hs]

/-- Witness for C6 at concrete inputs: a whitespace-only term and a
null term, with a provider that would fail if queried. -/
theorem c6_witness :
    isBlank "   " = true ∧
    searchChallenges [rec0] (some "db down") (SearchInput.str "   ") =
      Except.ok [] ∧
    searchChallenges [rec0] (some "db down") SearchInput.nullVal =
      Except.ok [] := by
  exact ⟨by decide,
    (c6_search_invalid_input_empty [rec0] (some "db down")).2.2 "   "
      (by decide),
    (c6_search_invalid_input_empty [rec0] (some "db down")).1⟩

/-- Claim C9: in `getAllChallenges` a falsy provided value for `status`
(the empty string) or for `community_member_id` (zero) behaves exactly
like omitting the key: the whole operation gives the same result. -/
theorem c9_falsy_filters_ignored (store : List ChallengeRecord)
    (pe : Option String) (f : Filters) :
    getAllChallenges store pe { f with status := some "" } =
      getAllChallenges store pe { f with status := none } ∧
    getAllChallenges store pe { f with community_member_id := some 0 } =
      getAllChallenges store pe { f with community_member_id := none } := by
  exact ⟨rfl, rfl⟩

/-- Claim C4: in `getAllChallenges` the `is_weekly` condition is
applied exactly when the filter set provides a value: providing `some b`
conjoins the condition `is_weekly = b` onto whatever the other filters
select, providing nothing imposes no `is_weekly` restriction, and with
no other filters the `false` value selects exactly the records whose
flag is explicitly `false` (records with the flag never set are
excluded). -/
theorem c4_is_weekly_filter_iff_provided (store : List ChallengeRecord)
    (f : Filters) (b : Bool) (r : ChallengeRecord) :
    (r ∈ resultList (getAllChallenges store none { f with is_weekly := some b }) ↔
      r ∈ resultList (getAllChallenges store none { f with is_weekly := none }) ∧
        r.is_weekly = some b) ∧
    (r ∈ resultList (getAllChallenges store none { is_weekly := some false }) ↔
      r ∈ store ∧ r.is_weekly = some false) ∧
    (r ∈ resultList (getAllChallenges store none ({} : Filters)) ↔
      r ∈ store) := by
  refine ⟨?_, ?_, ?_⟩
  · rw [mem_resultList_getAll, mem_resultList_getAll]
    simp only [matchesWhere, getAllWhere, Bool.and_eq_true, decide_eq_true_eq]
    tauto
  · rw [mem_resultList_getAll]
    simp [matchesWhere, getAllWhere]
  · rw [mem_resultList_getAll]
    simp [matchesWhere, getAllWhere]

/-- Claim C8: `getAllChallenges` restricts membership exactly by the
recognized keys (`status`, `community_member_id`, `is_weekly`, each an
exact match, here for non-falsy provided values), unrecognized keys do
not change the result at all, the empty filter set returns all records
(as a permutation of the store), and the result is always ordered by
`created_at` descending. -/
theorem c8_listAll_filters (store : List ChallengeRecord) (f : Filters)
    (e : List String)
    (hs : f.status ≠ some "") (hc : f.community_member_id ≠ some 0) :
    (∀ r, r ∈ resultList (getAllChallenges store none f) ↔
      r ∈ store ∧
        (∀ s, f.status = some s → r.status = s) ∧
        (∀ n, f.community_member_id = some n → r.community_member_id = n) ∧
        (∀ b, f.is_weekly = some b → r.is_weekly = some b)) ∧
    (getAllChallenges store none { f with extra := e } =
      getAllChallenges store none f) ∧
    (resultList (getAllChallenges store none ({} : Filters))).Perm store ∧
    List.Sorted createdGe (resultList (getAllChallenges store none f)) := by
  refine ⟨?_, rfl, ?_, ?_⟩
  · intro r
    obtain ⟨fs, fc, fw, fe⟩ := f
    simp only [Filters.status, Filters.community_member_id] at hs hc
    rw [mem_resultList_getAll]
    rcases fs with _ | s <;> rcases fc with _ | n <;> rcases fw with _ | b <;>
      simp_all [matchesWhere, getAllWhere, and_assoc]
  · have hfilter : store.filter (matchesWhere (getAllWhere ({} : Filters))) =
        store := by
      apply List.filter_eq_self.mpr
      intro r _
      rfl
    show (List.insertionSort createdGe
      (store.filter (matchesWhere (getAllWhere ({} : Filters))))).Perm store
    rw [hfilter]
    exact List.perm_insertionSort createdGe store
  · exact List.sorted_insertionSort createdGe _

/-- Witness for C8 at a concrete input: the status filter `"pending"`
is non-falsy and selects `rec0` from a one-record store. -/
theorem c8_witness :
    (Filters.mk (some "pending") none none []).status ≠ some "" ∧
    rec0 ∈ resultList
      (getAllChallenges [rec0] none (Filters.mk (some "pending") none none [])) := by
  refine ⟨by decide, ?_⟩
  refine ((c8_listAll_filters [rec0] (Filters.mk (some "pending") none none [])
    [] (by decide) (by decide)).1 rec0).mpr ?_
  refine ⟨List.mem_singleton.mpr rfl, ?_, ?_, ?_⟩
  · intro s h
    cases h
    rfl
  · intro n h
    cases h
  · intro b h
    cases h

/-- Claim C7: for every non-blank term, `searchChallenges` returns
exactly the records accepted by the provider-level contains match
(`LIKE %term%`) on title or description, ordered by `created_at`
descending; and for a term free of pattern metacharacters the
provider-level contains match selects exactly the records whose title
or description contains the term as a substring. -/
theorem c7_search_contains_match (store : List ChallengeRecord) (t : String)
    (ht : isBlank t = false) :
    (∀ r, r ∈ resultList (searchChallenges store none (SearchInput.str t)) ↔
      r ∈ store ∧ (likeMatch (searchPattern t) r.title.data = true ∨
        likeMatch (searchPattern t) r.description.data = true)) ∧
    ((∀ c ∈ t.data, c ≠ '%' ∧ c ≠ '_') →
      ∀ r, r ∈ resultList (searchChallenges store none (SearchInput.str t)) ↔
        r ∈ store ∧
          (t.data <:+: r.title.data ∨ t.data <:+: r.description.data)) ∧
    List.Sorted createdGe
      (resultList (searchChallenges store none (SearchInput.str t))) := by
  refine ⟨fun r => mem_resultList_search ht, fun hm r => ?_, ?_⟩
  · rw [mem_resultList_search ht, likeMatch_searchPattern_iff_infix hm,
      likeMatch_searchPattern_iff_infix hm]
  · have hstep : searchChallenges store none (SearchInput.str t) =
        Except.ok (sortByCreatedDesc (store.filter (fun r =>
          likeMatch (searchPattern t) r.title.data ||
            likeMatch (searchPattern t) r.description.data))) := by
      simp [searchChallenges, ht, runCatch]
    rw [hstep]
    exact List.sorted_insertionSort createdGe _

/-- Witness for C7 at a concrete input: `rec0`'s description contains
the non-blank, metacharacter-free term `"5km"`. -/
theorem c7_witness :
    rec0 ∈ resultList (searchChallenges [rec0] none
      (SearchInput.str "5km")) := by
  exact ((c7_search_contains_match [rec0] "5km" (by decide)).2.1
    (by decide) rec0).mpr
    ⟨List.mem_singleton.mpr rfl, Or.inr (by decide)⟩

/-- Claim C10: the raw term is interpolated into the `LIKE` pattern
without escaping, so a `'%'` in the term acts as an any-sequence
wildcard and a `'_'` as an any-single-character wildcard in the
title/description match: a term `a%b` selects a record whose title is
`a`, any character sequence, `b`, and a term `a_b` selects a record
whose title is `a`, any single character, `b` — even though (for a
title free of literal `'%'`) the `'%'`-term is not a literal substring
of the matched title. -/
theorem c10_like_metacharacters_wildcards (store : List ChallengeRecord)
    (a b w : String) (ch : Char) (r rr : ChallengeRecord)
    (ha : ∀ c ∈ a.data, c ≠ '%' ∧ c ≠ '_')
    (hb : ∀ c ∈ b.data, c ≠ '%' ∧ c ≠ '_')
    (ht1 : isBlank (a ++ "%" ++ b) = false)
    (ht2 : isBlank (a ++ "_" ++ b) = false)
    (hr : r ∈ store) (htitle : r.title.data = a.data ++ w.data ++ b.data)
    (hrr : rr ∈ store) (htitle2 : rr.title.data = a.data ++ ch :: b.data) :
    r ∈ resultList (searchChallenges store none
      (SearchInput.str (a ++ "%" ++ b))) ∧
    rr ∈ resultList (searchChallenges store none
      (SearchInput.str (a ++ "_" ++ b))) ∧
    ('%' ∉ r.title.data → ¬ (a ++ "%" ++ b).data <:+: r.title.data) := by
  refine ⟨?_, ?_, ?_⟩
  · rw [mem_resultList_search ht1]
    refine ⟨hr, Or.inl ?_⟩
    rw [htitle]
    exact likeMatch_mid_percent a b w.data ha hb
  · rw [mem_resultList_search ht2]
    refine ⟨hrr, Or.inl ?_⟩
    rw [htitle2]
    exact likeMatch_mid_underscore a b ch ha hb
  · intro hp hinf
    apply hp
    apply hinf.sublist.subset
    rw [String.data_append, String.data_append,
      show ("%" : String).data = ['%'] from rfl]
    simp

/-- Witness for C10 at concrete inputs: in a two-record store the term
`a%b` selects the title `aXYb` (which contains no literal `'%'`, and of
which `a%b` is not a substring) and the term `a_b` selects the title
`aZb`. -/
theorem c10_witness :
    rec1 ∈ resultList (searchChallenges [rec1, rec2] none
      (SearchInput.str ("a" ++ "%" ++ "b"))) ∧
    rec2 ∈ resultList (searchChallenges [rec1, rec2] none
      (SearchInput.str ("a" ++ "_" ++ "b"))) ∧
    ¬ ("a" ++ "%" ++ "b").data <:+: rec1.title.data := by
  have H := c10_like_metacharacters_wildcards [rec1, rec2] "a" "b" "XY" 'Z'
    rec1 rec2 (by decide) (by decide) (by decide) (by decide)
    (List.mem_cons_self rec1 [rec2]) (by decide)
    (List.mem_cons_of_mem rec1 (List.mem_singleton.mpr rfl)) (by decide)
  exact ⟨H.1, H.2.1, H.2.2 (by decide)⟩

end ChallengeRepo
